import Mathlib

/-!
# Verification of the garmindownloader month-bounded fetch pipeline

Shallow embedding of `src/garmindownloader/downloader.py` and
`src/garmindownloader/cli.py`.  Python `datetime.date` values are modelled by
the `Date` structure below; Python machine-independent integers by `Int`/`Nat`;
fallible Python code by `Except`/`Option`.  The hidden read of
`datetime.date.today()` inside `get_days_of_month` is made an explicit `today`
parameter, and the remote Garmin API is modelled as a function-valued
parameter supplying the per-day/per-range responses.
-/

namespace Garmin

/-- Model of Python `datetime.date` (a year/month/day triple).  Python
restricts these to valid calendar dates; validity is tracked by the
`ValidDate` predicate below rather than baked into the type. -/
structure Date where
  year : Nat
  month : Nat
  day : Nat
deriving DecidableEq, Repr

/-- Model of `calendar.isleap(year)`: divisible by 4 and not by 100, or
divisible by 400. -/
def isLeap (y : Nat) : Bool :=
  (y % 4 == 0 && y % 100 != 0) || y % 400 == 0

/-- Model of `calendar.monthrange(year, month)[1]`: the number of days of the
month (`mdays` table, with February adjusted in leap years).  Months outside
1..12 (which make `monthrange` raise) are mapped to 0. -/
def daysInMonth (y m : Nat) : Nat :=
  if m = 1 then 31
  else if m = 2 then (if isLeap y then 29 else 28)
  else if m = 3 then 31
  else if m = 4 then 30
  else if m = 5 then 31
  else if m = 6 then 30
  else if m = 7 then 31
  else if m = 8 then 31
  else if m = 9 then 30
  else if m = 10 then 31
  else if m = 11 then 30
  else if m = 12 then 31
  else 0

/-- A valid Python `datetime.date`: year at least `datetime.MINYEAR = 1`,
month in 1..12, day in 1..`daysInMonth`. -/
def ValidDate (d : Date) : Prop :=
  1 ≤ d.year ∧ 1 ≤ d.month ∧ d.month ≤ 12 ∧ 1 ≤ d.day ∧ d.day ≤ daysInMonth d.year d.month

instance (d : Date) : Decidable (ValidDate d) := by
  unfold ValidDate; infer_instance

/-- Days of year `y` that fall before month `m`
(`sum of daysInMonth y k for k = 1 .. m-1`); the month-offset part of
CPython's `date.toordinal`. -/
def daysBeforeMonth (y : Nat) : Nat → Nat
  | 0 => 0
  | m + 1 => if m = 0 then 0 else daysBeforeMonth y m + daysInMonth y m

/-- Days before January 1st of year `y` in the proleptic Gregorian calendar,
as computed by CPython's `_days_before_year`:
`365*(y-1) + (y-1)//4 - (y-1)//100 + (y-1)//400` (re-associated so that the
natural-number subtraction never truncates, since `n/4 ≥ n/100`). -/
def daysBeforeYear (y : Nat) : Nat :=
  365 * (y - 1) + ((y - 1) / 4 + (y - 1) / 400 - (y - 1) / 100)

/-- Model of Python `date.toordinal()`: day count with `date(1,1,1)` mapped
to 1. -/
def toOrdinal (d : Date) : Nat :=
  daysBeforeYear d.year + daysBeforeMonth d.year d.month + d.day

/-- Difference of two dates in days, as Python's `(a - b).days`. -/
def daysDiff (a b : Date) : Int :=
  (toOrdinal a : Int) - (toOrdinal b : Int)

/-- Lexicographic comparison of dates, as CPython compares
`(year, month, day)` tuples for `<=`. -/
def Date.leb (a b : Date) : Bool :=
  if a.year = b.year then
    (if a.month = b.month then a.day ≤ b.day else a.month < b.month)
  else a.year < b.year

/-- Lexicographic comparison of dates, as CPython compares
`(year, month, day)` tuples for `<`. -/
def Date.ltb (a b : Date) : Bool :=
  if a.year = b.year then
    (if a.month = b.month then a.day < b.day else a.month < b.month)
  else a.year < b.year

/-- Python `min(a, b)`: iterates left to right keeping the strictly smaller
element, so it returns `b` exactly when `b < a`. -/
def pyMin (a b : Date) : Date :=
  if Date.ltb b a then b else a

/-- The successor day of a Gregorian calendar date, modelling
`d + datetime.timedelta(days=1)` on valid dates. -/
def nextDay (d : Date) : Date :=
  if d.day < daysInMonth d.year d.month then ⟨d.year, d.month, d.day + 1⟩
  else if d.month < 12 then ⟨d.year, d.month + 1, 1⟩
  else ⟨d.year + 1, 1, 1⟩

/-- Model of `d + datetime.timedelta(days=n)` for `n ≥ 0`. -/
def addDays (d : Date) : Nat → Date
  | 0 => d
  | n + 1 => nextDay (addDays d n)

/-- The list-comprehension bound of `get_days_of_month`:
`(to_date - from_date).days + 1` where `from_date = date(year, month, 1)` and
`to_date = min(today, end_of_month)`.  A Python `int`, hence `Int`. -/
def get_days_count (month year : Nat) (today : Date) : Int :=
  daysDiff (pyMin today ⟨year, month, daysInMonth year month⟩) ⟨year, month, 1⟩ + 1

/-- Model of `get_days_of_month(month, year)` from `downloader.py`, with the
hidden `datetime.date.today()` read made an explicit `today` parameter.
The comprehension `[from_date + timedelta(days=i) for i in range(count)]`
is `(List.range count.toNat).map (addDays from_date)`: Python's `range`
over a non-positive bound is empty, which `Int.toNat` captures. -/
def get_days_of_month (month year : Nat) (today : Date) : List Date :=
  (List.range (get_days_count month year today).toNat).map
    (fun i => addDays ⟨year, month, 1⟩ i)

/-- `GARMIN_TOKEN_DIR` from `constants.py`. -/
def GARMIN_TOKEN_DIR : String := "~/.garth"

/-- Model of the token-store choice in `create_api_session`:
`os.getenv(GARMIN_TOKEN_ENV) or GARMIN_TOKEN_DIR`.  `os.getenv` yields
`none` when the variable is unset; Python's `or` falls through on any falsy
left operand, and the empty string is falsy. -/
def token_store (env : Option String) : String :=
  match env with
  | none => GARMIN_TOKEN_DIR
  | some s => if s = "" then GARMIN_TOKEN_DIR else s

/-- A per-day response object of `api.get_body_battery`, as destructured by
`fetch_bb_data`: the keys `date`, `charged`, `drained` and
`bodyBatteryValuesArray` (a list of `(timestamp, value)` pairs whose value
may be a non-numeric/absent entry, modelled as `none`). -/
structure BBDay where
  date : String
  charged : Int
  drained : Int
  bodyBatteryValuesArray : List (Int × Option Int)
deriving DecidableEq, Repr

/-- A row produced by `fetch_bb_data`. -/
structure BBRow where
  date : String
  charged : Int
  drained : Int
  max : Option Int
  min : Option Int
deriving DecidableEq, Repr

/-- Python `max(readings)` wrapped in `try ... except (ValueError, TypeError)`,
as in `fetch_bb_data`.  `max` raises `ValueError` on an empty sequence and
`TypeError` as soon as it compares a `None` (non-numeric) entry with a number;
a singleton `[None]` is returned as-is without comparison.  In every branch
where an exception is caught or `None` is the result the model yields
`none`; only an all-numeric non-empty sequence yields its maximum. -/
def pyMaxCaught (xs : List (Option Int)) : Option Int :=
  if xs.all Option.isSome then
    match xs.filterMap id with
    | [] => none
    | y :: ys => some (ys.foldl max y)
  else none

/-- Python `min(readings)` wrapped in `try ... except (ValueError, TypeError)`,
dually to `pyMaxCaught`. -/
def pyMinCaught (xs : List (Option Int)) : Option Int :=
  if xs.all Option.isSome then
    match xs.filterMap id with
    | [] => none
    | y :: ys => some (ys.foldl min y)
  else none

/-- The readings extracted by `fetch_bb_data`:
`[v for _, v in day["bodyBatteryValuesArray"]]`. -/
def bbReadings (day : BBDay) : List (Option Int) :=
  day.bodyBatteryValuesArray.map (fun p => p.2)

/-- The loop body of `fetch_bb_data`: one result row per per-day response. -/
def processBBDay (day : BBDay) : BBRow :=
  { date := day.date
    charged := day.charged
    drained := day.drained
    max := pyMaxCaught (bbReadings day)
    min := pyMinCaught (bbReadings day) }

/-- Zero-pad to two digits, as Python's format specifier `{:02d}` on the
month values 0..99 occurring here. -/
def pad2 (n : Nat) : String :=
  if n < 10 then "0" ++ toString n else toString n

/-- The output filename of `fetch_bb_data`: `f"bb{year}{month:02d}.csv"`. -/
def bbFilename (year month : Nat) : String :=
  "bb" ++ toString year ++ pad2 month ++ ".csv"

/-- The output filename of `fetch_hr_data`: `f"hr{year}{month:02d}.csv"`. -/
def hrFilename (year month : Nat) : String :=
  "hr" ++ toString year ++ pad2 month ++ ".csv"

/-- Model of `fetch_bb_data(api, year, month)`.  The single ranged API call
`api.get_body_battery(date_list[0].isoformat(), date_list[-1].isoformat())`
is modelled by passing its response `returnData` directly; the `for day in
return_data` loop appending one row per day is a map. -/
def fetch_bb_data (returnData : List BBDay) (year month : Nat) :
    List BBRow × String :=
  (returnData.map processBBDay, bbFilename year month)

/-- The response object of one `api.get_heart_rates(str(day))` call:
the key `heartRateValues` holds either `null` (`none`) or a list of
`(epoch_millis, bpm)` pairs. -/
structure HRResponse where
  heartRateValues : Option (List (Int × Int))
deriving DecidableEq, Repr

/-- A row produced by `fetch_hr_data`.  `timestampSeconds` models
`datetime.datetime.fromtimestamp(timestamp // 1000)`: the local date-time is
determined by (and here identified with) the whole-second epoch value
`timestamp // 1000`, Python floor division being `Int.fdiv`. -/
structure HRRow where
  timestampSeconds : Int
  heartrate : Int
deriving DecidableEq, Repr

/-- The per-day body of `fetch_hr_data`: the truthiness guard
`if return_data["heartRateValues"]:` skips both `null` and the empty list,
then each `(timestamp, heart_rate)` pair is appended as one row. -/
def processHRDay (r : HRResponse) : List HRRow :=
  match r.heartRateValues with
  | none => []
  | some l =>
    if l.isEmpty then []
    else l.map (fun p => { timestampSeconds := Int.fdiv p.1 1000, heartrate := p.2 })

/-- Model of `fetch_hr_data(api, year, month)`: one `get_heart_rates` call per
day of `get_days_of_month(month, year)` (the API modelled as a function from
the queried day to its response), rows appended in day order. -/
def fetch_hr_data (api : Date → HRResponse) (year month : Nat) (today : Date) :
    List HRRow × String :=
  ((get_days_of_month month year today).flatMap (fun d => processHRDay (api d)),
   hrFilename year month)

/-- Model of `GarmindownloaderException` from `exceptions.py` (the single
exception class of the package), carrying its message. -/
structure GarmindownloaderException where
  message : String
deriving DecidableEq, Repr

/-- Quoting of one CSV cell by Python's `csv` writer under the default
`QUOTE_MINIMAL` dialect: a cell containing the delimiter, the quote char or a
line break is wrapped in double quotes with inner quotes doubled. -/
def csvQuote (s : String) : String :=
  if s.data.any (fun c => c = ',' ∨ c = '"' ∨ c = '\n' ∨ c = '\r') then
    "\"" ++ String.mk (s.data.flatMap (fun c => if c = '"' then ['"', '"'] else [c])) ++ "\""
  else s

/-- One data line written by `csv.DictWriter` with
`extrasaction="ignore"`: for each configured field name, the row's value for
that key, with a missing key replaced by the writer's default
`restval = ""`; keys of the row outside `fieldnames` are never consulted.
A row is modelled as a key-value association list with its string-rendered
cell values. -/
def csvLine (fieldnames : List String) (row : List (String × String)) : String :=
  String.intercalate "," (fieldnames.map (fun f => csvQuote ((row.lookup f).getD "")))

/-- The header line written by `DictWriter.writeheader()`: the row mapping
each field name to itself. -/
def csvHeader (fieldnames : List String) : String :=
  csvLine fieldnames (fieldnames.map (fun f => (f, f)))

/-- Model of `write_data(data, filename, fieldnames)`.  The external I/O
outcome of opening/writing `filename` is an explicit `ioError` parameter
(`none` = success); on an `OSError`/`csv.Error` the function raises
`GarmindownloaderException(f"Error writing CSV file: {exc}")` wrapping the
cause, and on success the file holds the header line followed by one line
per row. -/
def write_data (data : List (List (String × String))) (fieldnames : List String)
    (ioError : Option String) :
    Except GarmindownloaderException (List String) :=
  match ioError with
  | some exc => .error ⟨"Error writing CSV file: " ++ exc⟩
  | none => .ok (csvHeader fieldnames :: data.map (csvLine fieldnames))

/-- The metric kinds of `DATATYPE_TO_FUNCTION` in `constants.py` (a closed
two-entry dispatch table keyed by the strings `"bb"` and `"hr"`). -/
inductive DataType where
  | bb
  | hr
deriving DecidableEq, Repr

/-- The `fieldnames` entry of `DATATYPE_TO_FUNCTION`. -/
def dataTypeFieldnames : DataType → List String
  | .bb => ["date", "charged", "drained", "max", "min"]
  | .hr => ["timestamp", "heartrate"]

/-- The filename the dispatched fetcher of a datatype returns for
`(year, month)`. -/
def dataTypeFilename (dt : DataType) (year month : Nat) : String :=
  match dt with
  | .bb => bbFilename year month
  | .hr => hrFilename year month

/-- Observable effects of one `fetch_data` run, in order of occurrence.  A
`fetch` event is the dispatched fetcher call of `fetch_bb_data` /
`fetch_hr_data` for a `(datatype, month)` pair; a `write` event is the
`write_data` call creating/truncating the named file. -/
inductive Event where
  | session
  | fetch (dt : DataType) (month : Nat)
  | write (dt : DataType) (month : Nat) (filename : String)
deriving DecidableEq, Repr

/-- The inner `for month in months` loop of `fetch_data` for one datatype:
fetch then write per month, aborting (exception propagation) on the first
failing fetch or write.  `fetchOutcome`/`writeOutcome` model the fallible
remote call and file write; the returned events are those that occurred
before the run ended, paired with the propagated error if any. -/
def runMonths (fetchOutcome : DataType → Nat → Except String Unit)
    (writeOutcome : String → Except String Unit)
    (dt : DataType) (year : Nat) : List Nat → List Event × Option String
  | [] => ([], none)
  | m :: ms =>
    match fetchOutcome dt m with
    | .error e => ([.fetch dt m], some e)
    | .ok _ =>
      match writeOutcome (dataTypeFilename dt year m) with
      | .error e => ([.fetch dt m, .write dt m (dataTypeFilename dt year m)], some e)
      | .ok _ =>
        let rest := runMonths fetchOutcome writeOutcome dt year ms
        (.fetch dt m :: .write dt m (dataTypeFilename dt year m) :: rest.1, rest.2)

/-- The outer `for datatype in datatype` loop of `fetch_data`. -/
def runKinds (fetchOutcome : DataType → Nat → Except String Unit)
    (writeOutcome : String → Except String Unit)
    (year : Nat) (months : List Nat) : List DataType → List Event × Option String
  | [] => ([], none)
  | dt :: dts =>
    let first := runMonths fetchOutcome writeOutcome dt year months
    match first.2 with
    | some e => (first.1, some e)
    | none =>
      let rest := runKinds fetchOutcome writeOutcome year months dts
      (first.1 ++ rest.1, rest.2)

/-- Model of the orchestrator `fetch_data(year, months, datatype)`:
`create_api_session()` once up front, then kinds × months with one dispatched
fetch and one `write_data` per pair, as an event trace. -/
def fetch_data (fetchOutcome : DataType → Nat → Except String Unit)
    (writeOutcome : String → Except String Unit)
    (year : Nat) (months : List Nat) (datatypes : List DataType) :
    List Event × Option String :=
  let rest := runKinds fetchOutcome writeOutcome year months datatypes
  (.session :: rest.1, rest.2)

/-- `str.split("-")` from Python, on character lists: split at every dash,
keeping empty segments (`"".split("-") = [""]`, `"-".split("-") = ["", ""]`). -/
def splitDash : List Char → List (List Char)
  | [] => [[]]
  | c :: rest =>
    let r := splitDash rest
    if c = '-' then [] :: r
    else
      match r with
      | g :: gs => (c :: g) :: gs
      | [] => [[c]]

/-- Python `int(s)` returning `none` where CPython raises `ValueError`:
surrounding whitespace is stripped, then an optional single sign followed by
a non-empty digit string is accepted. -/
def pyInt (s : String) : Option Int :=
  let cs := (s.data.dropWhile Char.isWhitespace).reverse.dropWhile Char.isWhitespace |>.reverse
  let (sign, ds) : Int × List Char :=
    match cs with
    | '-' :: rest => (-1, rest)
    | '+' :: rest => (1, rest)
    | _ => (1, cs)
  if ds.isEmpty = false && ds.all Char.isDigit then
    some (sign * (ds.foldl (fun acc c => 10 * acc + (c.toNat - 48)) 0 : Nat))
  else none

/-- `list(range(a, b))` on Python ints. -/
def pyRangeInt (a b : Int) : List Int :=
  (List.range (b - a).toNat).map (fun n : Nat => a + (n : Int))

/-- Model of `parse_months(month_str)` from `cli.py`.  The raised
`argparse.ArgumentTypeError` is the `Except.error` case carrying the message.
The tuple unpacking `start_month, end_month = map(int, month_str.split("-"))`
raises `ValueError` (caught and converted) both when a part is not an integer
and when the number of parts differs from two. -/
def parse_months (month_str : String) : Except String (List Int) :=
  if month_str.data.contains '-' then
    match (splitDash month_str.data).map (fun p => pyInt (String.mk p)) with
    | [some start_month, some end_month] =>
      if start_month < 1 ∨ end_month > 12 ∨ start_month > end_month then
        .error "Invalid month range"
      else
        .ok (pyRangeInt start_month (end_month + 1))
    | _ => .error "Invalid month range"
  else
    match pyInt month_str with
    | none => .error "Month must be a number between 1 and 12"
    | some month =>
      if month < 1 ∨ month > 12 then
        .error "Month must be a number between 1 and 12"
      else
        .ok [month]

/-- The arguments `main` passes on after `parse_command_line_args`
succeeded. -/
structure CliArgs where
  year : Int
  months : List Int
  datatypes : List DataType

/-- Model of the body of `main()` after successful argument parsing: the
guard `if args.year and args.month:` (Python truthiness: `0` and `[]` are
falsy), `fetch_data` wrapped in `try ... except Exception`, the caught
exception printed to stderr, and the fall-through producing process exit
status 0.  The outcome of `fetch_data` is the explicit `fetchResult`
parameter (`Except` over the printed message of the raised exception);
the result is the pair (stderr lines, exit status). -/
def mainAfterParse (args : CliArgs) (fetchResult : Except String Unit) :
    List String × Nat :=
  if args.year ≠ 0 ∧ args.months ≠ [] then
    match fetchResult with
    | .ok _ => ([], 0)
    | .error exc => ([exc], 0)
  else ([], 0)

/-- Discriminator for `write` events, used to count file writes of a run. -/
def isWriteEvent : Event → Bool
  | .write _ _ _ => true
  | _ => false

/-! ## Theorems -/

theorem foldl_max_mem (y : Int) (ys : List Int) : ys.foldl max y ∈ y :: ys := by
  induction ys generalizing y with
  | nil => simp
  | cons z zs ih =>
    have h := ih (max y z)
    simp only [List.foldl_cons]
    rcases List.mem_cons.mp h with h1 | h1
    · rw [h1]
      rcases max_choice y z with hm | hm <;> rw [hm] <;> simp
    · simp [h1]

theorem le_foldl_max (y : Int) (ys : List Int) : ∀ x ∈ y :: ys, x ≤ ys.foldl max y := by
  induction ys generalizing y with
  | nil => intro x hx; simp at hx; simp [hx]
  | cons z zs ih =>
    intro x hx
    simp only [List.foldl_cons]
    have hhead : max y z ≤ zs.foldl max (max y z) :=
      ih (max y z) (max y z) (List.mem_cons_self _ _)
    rcases List.mem_cons.mp hx with h1 | h1
    · subst h1; exact le_trans (le_max_left x z) hhead
    · rcases List.mem_cons.mp h1 with h2 | h2
      · subst h2; exact le_trans (le_max_right y x) hhead
      · exact ih (max y z) x (List.mem_cons_of_mem _ h2)

theorem foldl_min_mem (y : Int) (ys : List Int) : ys.foldl min y ∈ y :: ys := by
  induction ys generalizing y with
  | nil => simp
  | cons z zs ih =>
    have h := ih (min y z)
    simp only [List.foldl_cons]
    rcases List.mem_cons.mp h with h1 | h1
    · rw [h1]
      rcases min_choice y z with hm | hm <;> rw [hm] <;> simp
    · simp [h1]

theorem foldl_min_le (y : Int) (ys : List Int) : ∀ x ∈ y :: ys, ys.foldl min y ≤ x := by
  induction ys generalizing y with
  | nil => intro x hx; simp at hx; simp [hx]
  | cons z zs ih =>
    intro x hx
    simp only [List.foldl_cons]
    have hhead : zs.foldl min (min y z) ≤ min y z :=
      ih (min y z) (min y z) (List.mem_cons_self _ _)
    rcases List.mem_cons.mp hx with h1 | h1
    · subst h1; exact le_trans hhead (min_le_left x z)
    · rcases List.mem_cons.mp h1 with h2 | h2
      · subst h2; exact le_trans hhead (min_le_right y x)
      · exact ih (min y z) x (List.mem_cons_of_mem _ h2)

theorem mem_filterMap_id {vs : List (Option Int)} {x : Int} :
    x ∈ vs.filterMap id ↔ some x ∈ vs := by
  rw [List.mem_filterMap]
  constructor
  · rintro ⟨b, hb, hbx⟩
    cases b with
    | none => simp at hbx
    | some a => simp at hbx; subst hbx; exact hb
  · intro h; exact ⟨some x, h, rfl⟩

theorem pyMaxCaught_all_some (vs : List (Option Int)) (hall : ∀ v ∈ vs, v.isSome)
    (hne : vs ≠ []) :
    ∃ M, pyMaxCaught vs = some M ∧ some M ∈ vs ∧ ∀ x, some x ∈ vs → x ≤ M := by
  unfold pyMaxCaught
  rw [if_pos (by rw [List.all_eq_true]; exact hall)]
  rcases hfm : vs.filterMap id with _ | ⟨y, ys⟩
  · exfalso
    cases vs with
    | nil => exact hne rfl
    | cons v vs' =>
      have h0 := hall v (List.mem_cons_self _ _)
      obtain ⟨a, ha⟩ := Option.isSome_iff_exists.mp h0
      have : a ∈ (v :: vs').filterMap id := mem_filterMap_id.mpr (by rw [ha]; exact List.mem_cons_self _ _)
      rw [hfm] at this
      exact List.not_mem_nil a this
  · refine ⟨ys.foldl max y, rfl, ?_, ?_⟩
    · have := foldl_max_mem y ys
      rw [← hfm] at this
      exact mem_filterMap_id.mp this
    · intro x hx
      have : x ∈ y :: ys := by rw [← hfm]; exact mem_filterMap_id.mpr hx
      exact le_foldl_max y ys x this

theorem pyMinCaught_all_some (vs : List (Option Int)) (hall : ∀ v ∈ vs, v.isSome)
    (hne : vs ≠ []) :
    ∃ M, pyMinCaught vs = some M ∧ some M ∈ vs ∧ ∀ x, some x ∈ vs → M ≤ x := by
  unfold pyMinCaught
  rw [if_pos (by rw [List.all_eq_true]; exact hall)]
  rcases hfm : vs.filterMap id with _ | ⟨y, ys⟩
  · exfalso
    cases vs with
    | nil => exact hne rfl
    | cons v vs' =>
      have h0 := hall v (List.mem_cons_self _ _)
      obtain ⟨a, ha⟩ := Option.isSome_iff_exists.mp h0
      have : a ∈ (v :: vs').filterMap id := mem_filterMap_id.mpr (by rw [ha]; exact List.mem_cons_self _ _)
      rw [hfm] at this
      exact List.not_mem_nil a this
  · refine ⟨ys.foldl min y, rfl, ?_, ?_⟩
    · have := foldl_min_mem y ys
      rw [← hfm] at this
      exact mem_filterMap_id.mp this
    · intro x hx
      have : x ∈ y :: ys := by rw [← hfm]; exact mem_filterMap_id.mpr hx
      exact foldl_min_le y ys x this

theorem pyMaxCaught_of_none_mem (vs : List (Option Int)) (h : none ∈ vs) :
    pyMaxCaught vs = none := by
  unfold pyMaxCaught
  rw [if_neg]
  intro hall
  rw [List.all_eq_true] at hall
  have := hall none h
  simp at this

theorem pyMinCaught_of_none_mem (vs : List (Option Int)) (h : none ∈ vs) :
    pyMinCaught vs = none := by
  unfold pyMinCaught
  rw [if_neg]
  intro hall
  rw [List.all_eq_true] at hall
  have := hall none h
  simp at this

/-- C9: if the `GARMINTOKENS` environment variable is set to the empty
string, `create_api_session` uses the default token path `~/.garth` exactly
as if the variable were unset: Python's `or` tests the value's truthiness,
not the variable's presence, so an empty-string setting never yields an
empty token-store path. -/
theorem token_store_empty_env :
    token_store (some "") = "~/.garth" ∧
    token_store none = "~/.garth" ∧
    token_store (some "") = token_store none ∧
    (∀ env, token_store env ≠ "") ∧
    (∀ s, s ≠ "" → token_store (some s) = s) := by
  refine ⟨rfl, rfl, rfl, ?_, ?_⟩
  · intro env
    cases env with
    | none => decide
    | some s =>
      show (if s = "" then GARMIN_TOKEN_DIR else s) ≠ ""
      split
      · decide
      · assumption
  · intro s hs
    show (if s = "" then GARMIN_TOKEN_DIR else s) = s
    rw [if_neg hs]

/-- C9 witness: a non-empty setting is taken verbatim, and the empty-string
setting falls back to the default. -/
theorem token_store_empty_env_witness :
    token_store (some "/custom/path") ≠ "" ∧
    token_store (some "/custom/path") = "/custom/path" :=
  ⟨(token_store_empty_env.2.2.2.1 (some "/custom/path")),
   (token_store_empty_env.2.2.2.2 "/custom/path" (by decide))⟩

/-- C8: for every runtime error raised during `fetch_data`, `main` catches
it once, prints a single message to the error stream, and falls through to a
normal exit with status zero; for every `fetch_data` outcome the exit status
is zero, and no exception escapes (the model is total). -/
theorem main_error_handling (args : CliArgs) (exc : String)
    (hy : args.year ≠ 0) (hm : args.months ≠ []) :
    mainAfterParse args (.error exc) = ([exc], 0) ∧
    mainAfterParse args (.ok ()) = ([], 0) ∧
    (∀ a r, (mainAfterParse a r).2 = 0) := by
  refine ⟨?_, ?_, ?_⟩
  · unfold mainAfterParse
    rw [if_pos ⟨hy, hm⟩]
  · unfold mainAfterParse
    rw [if_pos ⟨hy, hm⟩]
  · intro a r
    unfold mainAfterParse
    split
    · match r with
      | .ok _ => rfl
      | .error _ => rfl
    · rfl

/-- C8 witness: a concrete failing run prints the one message and exits
with status 0. -/
theorem main_error_handling_witness :
    mainAfterParse ⟨2024, [5], [.bb, .hr]⟩ (.error "Error: HTTP 401") =
      (["Error: HTTP 401"], 0) ∧
    mainAfterParse ⟨2024, [5], [.bb, .hr]⟩ (.ok ()) = ([], 0) :=
  ⟨(main_error_handling ⟨2024, [5], [.bb, .hr]⟩ "Error: HTTP 401"
      (by decide) (by decide)).1,
   (main_error_handling ⟨2024, [5], [.bb, .hr]⟩ "Error: HTTP 401"
      (by decide) (by decide)).2.1⟩

/-- C2 counterexample: on a day whose sample array mixes a numeric reading
with a non-numeric one, `fetch_bb_data` sets `max` to `None` even though a
numeric sample (30, the greatest one) exists — Python's `max` raises
`TypeError` on the first comparison with `None`, which the `except` clause
converts to `None` — contradicting the claim that `max` is the greatest
numeric sample value whenever any numeric sample exists. -/
theorem fetch_bb_mixed_counterexample :
    some (30 : Int) ∈ bbReadings ⟨"2024-05-01", 50, 40, [(1, some 30), (2, none)]⟩ ∧
    (processBBDay ⟨"2024-05-01", 50, 40, [(1, some 30), (2, none)]⟩).max = none ∧
    (processBBDay ⟨"2024-05-01", 50, 40, [(1, some 30), (2, none)]⟩).max ≠ some 30 ∧
    (processBBDay ⟨"2024-05-01", 50, 40, [(1, some 30), (2, none)]⟩).min = none := by
  decide

/-- C2 (amended): each produced row passes `date`, `charged`, `drained`
through unmodified; when the sample array is non-empty and every sample
value is numeric, `max`/`min` are the greatest/least sample value; when the
array is empty, or when any sample value is non-numeric (so Python's
`max`/`min` raises and the exception is caught), both are `None`; no
exception escapes.  On the sample array `[(1,30),(2,50),(3,70)]` with
charged=50, drained=40, date="2024-05-01" the row is exactly as specified,
and the returned filename is `bb{year}{month:02d}.csv`. -/
theorem fetch_bb_data_correct :
    (∀ day : BBDay, (processBBDay day).date = day.date ∧
      (processBBDay day).charged = day.charged ∧
      (processBBDay day).drained = day.drained) ∧
    (∀ day : BBDay, (∀ v ∈ bbReadings day, v.isSome) → bbReadings day ≠ [] →
      (∃ M, (processBBDay day).max = some M ∧ some M ∈ bbReadings day ∧
        ∀ x, some x ∈ bbReadings day → x ≤ M) ∧
      (∃ m, (processBBDay day).min = some m ∧ some m ∈ bbReadings day ∧
        ∀ x, some x ∈ bbReadings day → m ≤ x)) ∧
    (∀ day : BBDay, bbReadings day = [] →
      (processBBDay day).max = none ∧ (processBBDay day).min = none) ∧
    (∀ day : BBDay, none ∈ bbReadings day →
      (processBBDay day).max = none ∧ (processBBDay day).min = none) ∧
    (∀ returnData year month,
      (fetch_bb_data returnData year month).1 = returnData.map processBBDay ∧
      (fetch_bb_data returnData year month).2 = bbFilename year month) ∧
    processBBDay ⟨"2024-05-01", 50, 40, [(1, some 30), (2, some 50), (3, some 70)]⟩ =
      ⟨"2024-05-01", 50, 40, some 70, some 30⟩ ∧
    (processBBDay ⟨"2024-05-01", 50, 40, []⟩).max = none ∧
    (processBBDay ⟨"2024-05-01", 50, 40, []⟩).min = none ∧
    bbFilename 2024 5 = "bb202405.csv" := by
  refine ⟨fun day => ⟨rfl, rfl, rfl⟩, ?_, ?_, ?_, fun r y m => ⟨rfl, rfl⟩,
    by decide, by decide, by decide, by decide⟩
  · intro day hall hne
    exact ⟨pyMaxCaught_all_some (bbReadings day) hall hne,
      pyMinCaught_all_some (bbReadings day) hall hne⟩
  · intro day hnil
    constructor
    · show pyMaxCaught (bbReadings day) = none
      rw [hnil]; decide
    · show pyMinCaught (bbReadings day) = none
      rw [hnil]; decide
  · intro day hmem
    exact ⟨pyMaxCaught_of_none_mem _ hmem, pyMinCaught_of_none_mem _ hmem⟩

/-- C2 witness: the max/min characterization instantiated on the concrete
all-numeric sample array of the claim. -/
theorem fetch_bb_data_correct_witness :
    (∃ M, (processBBDay ⟨"2024-05-01", 50, 40,
        [(1, some 30), (2, some 50), (3, some 70)]⟩).max = some M ∧
      some M ∈ bbReadings ⟨"2024-05-01", 50, 40,
        [(1, some 30), (2, some 50), (3, some 70)]⟩ ∧
      ∀ x, some x ∈ bbReadings ⟨"2024-05-01", 50, 40,
        [(1, some 30), (2, some 50), (3, some 70)]⟩ → x ≤ M) ∧
    (∃ m, (processBBDay ⟨"2024-05-01", 50, 40,
        [(1, some 30), (2, some 50), (3, some 70)]⟩).min = some m ∧
      some m ∈ bbReadings ⟨"2024-05-01", 50, 40,
        [(1, some 30), (2, some 50), (3, some 70)]⟩ ∧
      ∀ x, some x ∈ bbReadings ⟨"2024-05-01", 50, 40,
        [(1, some 30), (2, some 50), (3, some 70)]⟩ → m ≤ x) :=
  fetch_bb_data_correct.2.1
    ⟨"2024-05-01", 50, 40, [(1, some 30), (2, some 50), (3, some 70)]⟩
    (by decide) (by decide)

/-- C4: each `(epoch_millis, bpm)` pair of a day's sample list becomes
exactly one row, with `timestamp` the local date-time of
`epoch_millis // 1000` seconds (floor division by 1000) and `heartrate` the
bpm unchanged; a null or empty sample list contributes zero rows without
error; rows are appended in day order over `get_days_of_month`; the filename
is `hr{year}{month:02d}.csv`. -/
theorem fetch_hr_data_correct :
    (∀ r : HRResponse, ∀ l, r.heartRateValues = some l →
      (processHRDay r).length = l.length ∧
      ∀ i : Nat, (processHRDay r)[i]? =
        (l[i]?).map (fun p => ({ timestampSeconds := Int.fdiv p.1 1000, heartrate := p.2 } : HRRow))) ∧
    (∀ r : HRResponse, r.heartRateValues = none ∨ r.heartRateValues = some [] →
      processHRDay r = []) ∧
    (∀ api year month today,
      (fetch_hr_data api year month today).1 =
        (get_days_of_month month year today).flatMap (fun d => processHRDay (api d)) ∧
      (fetch_hr_data api year month today).2 = hrFilename year month) ∧
    processHRDay ⟨some [(1714550400000, 60)]⟩ = [⟨1714550400, 60⟩] ∧
    Int.fdiv 1714550400000 1000 = 1714550400 ∧
    hrFilename 2024 5 = "hr202405.csv" := by
  refine ⟨?_, ?_, fun api y m t => ⟨rfl, rfl⟩, by decide, by decide, by decide⟩
  · intro r l h
    have hp : processHRDay r =
        (if l.isEmpty then []
         else l.map (fun p =>
           ({ timestampSeconds := Int.fdiv p.1 1000, heartrate := p.2 } : HRRow))) := by
      unfold processHRDay
      rw [h]
    cases l with
    | nil => rw [hp]; exact ⟨rfl, fun i => by simp⟩
    | cons p ps =>
      rw [hp, if_neg (by simp)]
      exact ⟨by simp, fun i => by rw [List.getElem?_map]⟩
  · intro r h
    unfold processHRDay
    rcases h with h | h <;> (rw [h]; try rfl)

theorem lookup_map_self (l : List String) (f : String) (h : f ∈ l) :
    (l.map (fun g => (g, g))).lookup f = some f := by
  induction l with
  | nil => simp at h
  | cons g gs ih =>
    simp only [List.map_cons, List.lookup]
    by_cases hg : f = g
    · subst hg
      simp
    · have hbeq : (f == g) = false := by simp [hg]
      rw [hbeq]
      show (gs.map (fun g => (g, g))).lookup f = some f
      apply ih
      rcases List.mem_cons.mp h with h1 | h1
      · exact absurd h1 hg
      · exact h1

/-- C6: month parsing accepts "5-8" as [5,6,7,8] and "7-7" as [7]; rejects
"0-5", "10-13", "8-5" as invalid ranges and "13", "0", "abc" as invalid
single months, raising a usage error (ArgumentTypeError) in every rejected
case; any accepted value is a non-empty list of months in 1..12, consistent
with accepting a single integer 1-12 or a start-end range with
1 ≤ start ≤ end ≤ 12. -/
theorem parse_months_correct :
    parse_months "5-8" = .ok [5, 6, 7, 8] ∧
    parse_months "7-7" = .ok [7] ∧
    parse_months "0-5" = .error "Invalid month range" ∧
    parse_months "10-13" = .error "Invalid month range" ∧
    parse_months "8-5" = .error "Invalid month range" ∧
    parse_months "13" = .error "Month must be a number between 1 and 12" ∧
    parse_months "0" = .error "Month must be a number between 1 and 12" ∧
    parse_months "abc" = .error "Month must be a number between 1 and 12" ∧
    (∀ s l, parse_months s = .ok l → l ≠ [] ∧ ∀ m ∈ l, 1 ≤ m ∧ m ≤ 12) := by
  refine ⟨by rfl, by rfl, by rfl, by rfl, by rfl, by rfl,
    by rfl, by rfl, ?_⟩
  intro s l h
  unfold parse_months at h
  split at h
  · split at h
    · next a b hab =>
      split at h
      · exact absurd h (by simp)
      · next hcond =>
        push_neg at hcond
        obtain ⟨h1, h2, h3⟩ := hcond
        have hl : pyRangeInt a (b + 1) = l := by
          injection h
        subst hl
        have hr : ∀ m : Int, m ∈ pyRangeInt a (b + 1) → a ≤ m ∧ m ≤ b := by
          intro m hm
          unfold pyRangeInt at hm
          rw [List.mem_map] at hm
          obtain ⟨i, hi, hmi⟩ := hm
          rw [List.mem_range] at hi
          have hib : (i : Int) < b + 1 - a := by omega
          omega
        constructor
        · intro heq
          have hlen : (pyRangeInt a (b + 1)).length = 0 := by rw [heq]; rfl
          unfold pyRangeInt at hlen
          rw [List.length_map, List.length_range, Int.toNat_eq_zero] at hlen
          omega
        · intro m hm
          have := hr m hm
          omega
    · exact absurd h (by simp)
  · split at h
    · exact absurd h (by simp)
    · next m hm =>
      split at h
      · exact absurd h (by simp)
      · next hcond =>
        push_neg at hcond
        have hl : [m] = l := by
          injection h
        subst hl
        exact ⟨by simp, by intro x hx; simp at hx; omega⟩

/-- C6 witness: the soundness clause instantiated on the accepted range
input "5-8". -/
theorem parse_months_correct_witness :
    [(5 : Int), 6, 7, 8] ≠ [] ∧ ∀ m ∈ [(5 : Int), 6, 7, 8], 1 ≤ m ∧ m ≤ 12 :=
  parse_months_correct.2.2.2.2.2.2.2.2 "5-8" [5, 6, 7, 8]
    parse_months_correct.1

/-- C7: the CSV writer writes a header of exactly the field names in the
given order, one line per row that reads only the listed fields (extra keys
on a row are ignored), a row missing a listed field still yields a line with
an empty cell, and any I/O or serialization failure raises the single
GarmindownloaderException kind with a message wrapping the underlying
cause. -/
theorem write_data_correct :
    (∀ fieldnames : List String, (∀ f ∈ fieldnames, csvQuote f = f) →
      csvHeader fieldnames = String.intercalate "," fieldnames) ∧
    (∀ data fieldnames, ∃ lines, write_data data fieldnames none = .ok lines ∧
      lines.length = data.length + 1 ∧ lines.head? = some (csvHeader fieldnames)) ∧
    (∀ fieldnames (row row' : List (String × String)),
      (∀ f ∈ fieldnames, row.lookup f = row'.lookup f) →
      csvLine fieldnames row = csvLine fieldnames row') ∧
    (∀ data fieldnames exc, write_data data fieldnames (some exc) =
      .error ⟨"Error writing CSV file: " ++ exc⟩) ∧
    write_data [[("field1", "a"), ("extra", "x")], [("field2", "b")]]
        ["field1", "field2"] none =
      .ok ["field1,field2", "a,", ",b"] := by
  refine ⟨?_, ?_, ?_, fun d fn e => rfl, by rfl⟩
  · intro fn hq
    unfold csvHeader csvLine
    have hmap : fn.map (fun f => csvQuote (((fn.map (fun g => (g, g))).lookup f).getD "")) = fn := by
      conv_rhs => rw [← List.map_id fn]
      apply List.map_congr_left
      intro f hf
      rw [lookup_map_self fn f hf]
      exact hq f hf
    rw [hmap]
  · intro d fn
    refine ⟨csvHeader fn :: d.map (csvLine fn), rfl, by simp, rfl⟩
  · intro fn row row' hl
    unfold csvLine
    apply congrArg (String.intercalate ",")
    apply List.map_congr_left
    intro f hf
    rw [hl f hf]

/-- C7 witness: the header property and the extra-key invariance
instantiated concretely (two rows differing only in a key outside the field
list produce the same line). -/
theorem write_data_correct_witness :
    csvHeader ["field1", "field2"] = String.intercalate "," ["field1", "field2"] ∧
    csvLine ["field1", "field2"] [("field1", "a"), ("extra", "x")] =
      csvLine ["field1", "field2"] [("field1", "a"), ("extra", "y")] :=
  ⟨write_data_correct.1 ["field1", "field2"] (by decide),
   write_data_correct.2.2.1 ["field1", "field2"]
     [("field1", "a"), ("extra", "x")] [("field1", "a"), ("extra", "y")]
     (by decide)⟩

/-- C4 witness: the row-for-pair characterization instantiated on the
concrete response of the claim. -/
theorem fetch_hr_data_correct_witness :
    (processHRDay ⟨some [(1714550400000, 60)]⟩).length = 1 ∧
    ∀ i : Nat, (processHRDay ⟨some [(1714550400000, 60)]⟩)[i]? =
      ([((1714550400000 : Int), (60 : Int))][i]?).map
        (fun p => ({ timestampSeconds := Int.fdiv p.1 1000, heartrate := p.2 } : HRRow)) :=
  fetch_hr_data_correct.1 ⟨some [(1714550400000, 60)]⟩ [(1714550400000, 60)] rfl

theorem runMonths_ok (fetchOutcome : DataType → Nat → Except String Unit)
    (writeOutcome : String → Except String Unit) (dt : DataType) (year : Nat)
    (months : List Nat)
    (hf : ∀ m, fetchOutcome dt m = .ok ())
    (hw : ∀ fn, writeOutcome fn = .ok ()) :
    runMonths fetchOutcome writeOutcome dt year months =
      (months.flatMap (fun m =>
        [.fetch dt m, .write dt m (dataTypeFilename dt year m)]), none) := by
  induction months with
  | nil => rfl
  | cons m ms ih => simp [runMonths, hf, hw, ih]

theorem runKinds_ok (fetchOutcome : DataType → Nat → Except String Unit)
    (writeOutcome : String → Except String Unit) (year : Nat) (months : List Nat)
    (datatypes : List DataType)
    (hf : ∀ dt m, fetchOutcome dt m = .ok ())
    (hw : ∀ fn, writeOutcome fn = .ok ()) :
    runKinds fetchOutcome writeOutcome year months datatypes =
      (datatypes.flatMap (fun dt => months.flatMap (fun m =>
        [.fetch dt m, .write dt m (dataTypeFilename dt year m)])), none) := by
  induction datatypes with
  | nil => rfl
  | cons dt dts ih =>
    simp [runKinds, runMonths_ok fetchOutcome writeOutcome dt year months (hf dt) hw, ih]

theorem session_not_in_runMonths (fetchOutcome : DataType → Nat → Except String Unit)
    (writeOutcome : String → Except String Unit) (dt : DataType) (year : Nat)
    (months : List Nat) :
    Event.session ∉ (runMonths fetchOutcome writeOutcome dt year months).1 := by
  induction months with
  | nil => simp [runMonths]
  | cons m ms ih =>
    cases hfo : fetchOutcome dt m with
    | error e => simp [runMonths, hfo]
    | ok u =>
      cases hwo : writeOutcome (dataTypeFilename dt year m) with
      | error e => simp [runMonths, hfo, hwo]
      | ok v => simp [runMonths, hfo, hwo, ih]

theorem session_not_in_runKinds (fetchOutcome : DataType → Nat → Except String Unit)
    (writeOutcome : String → Except String Unit) (year : Nat) (months : List Nat)
    (datatypes : List DataType) :
    Event.session ∉ (runKinds fetchOutcome writeOutcome year months datatypes).1 := by
  induction datatypes with
  | nil => simp [runKinds]
  | cons dt dts ih =>
    cases hrm : (runMonths fetchOutcome writeOutcome dt year months).2 with
    | some e =>
      simp only [runKinds, hrm]
      exact session_not_in_runMonths fetchOutcome writeOutcome dt year months
    | none =>
      simp only [runKinds, hrm, List.mem_append]
      push_neg
      exact ⟨session_not_in_runMonths fetchOutcome writeOutcome dt year months, ih⟩

theorem countP_isWrite_month_trace (dt : DataType) (year : Nat) (months : List Nat) :
    (months.flatMap (fun m =>
      [Event.fetch dt m, Event.write dt m (dataTypeFilename dt year m)])).countP
        isWriteEvent = months.length := by
  induction months with
  | nil => rfl
  | cons m ms ih =>
    rw [List.flatMap_cons, List.countP_append, ih]
    simp [List.countP_cons, isWriteEvent]
    omega

theorem countP_isWrite_kind_trace (year : Nat) (months : List Nat)
    (datatypes : List DataType) :
    (datatypes.flatMap (fun dt => months.flatMap (fun m =>
      [Event.fetch dt m, Event.write dt m (dataTypeFilename dt year m)]))).countP
        isWriteEvent = datatypes.length * months.length := by
  induction datatypes with
  | nil => simp
  | cons dt dts ih =>
    rw [List.flatMap_cons, List.countP_append, ih, countP_isWrite_month_trace,
      List.length_cons]
    ring

/-- C5: one `fetch_data` invocation creates exactly one authenticated
session — not one per month or kind — and creates it before any fetch (it is
the first event of the trace); when all calls succeed the trace iterates
metric kinds in caller order and months in caller order within each kind,
with the matching fetch immediately followed by one CSV write per pair, and
the number of writes is kinds × months; for `(2024, [5], [bb, hr])` the run
is exactly one session creation, one aggregate fetch, one sample-fetch
pipeline, and two file writes. -/
theorem fetch_data_orchestration
    (fetchOutcome : DataType → Nat → Except String Unit)
    (writeOutcome : String → Except String Unit)
    (year : Nat) (months : List Nat) (datatypes : List DataType)
    (hf : ∀ dt m, fetchOutcome dt m = .ok ())
    (hw : ∀ fn, writeOutcome fn = .ok ()) :
    (fetch_data fetchOutcome writeOutcome year months datatypes).1 =
      .session :: datatypes.flatMap (fun dt => months.flatMap (fun m =>
        [.fetch dt m, .write dt m (dataTypeFilename dt year m)])) ∧
    (fetch_data fetchOutcome writeOutcome year months datatypes).1.head? =
      some .session ∧
    (fetch_data fetchOutcome writeOutcome year months datatypes).1.count
      .session = 1 ∧
    (fetch_data fetchOutcome writeOutcome year months datatypes).1.countP
      isWriteEvent = datatypes.length * months.length ∧
    (fetch_data (fun _ _ => .ok ()) (fun _ => .ok ()) 2024 [5] [.bb, .hr]).1 =
      [.session, .fetch .bb 5, .write .bb 5 "bb202405.csv",
       .fetch .hr 5, .write .hr 5 "hr202405.csv"] := by
  have htrace : (fetch_data fetchOutcome writeOutcome year months datatypes).1 =
      .session :: datatypes.flatMap (fun dt => months.flatMap (fun m =>
        [.fetch dt m, .write dt m (dataTypeFilename dt year m)])) := by
    unfold fetch_data
    rw [runKinds_ok fetchOutcome writeOutcome year months datatypes hf hw]
  refine ⟨htrace, ?_, ?_, ?_, by rfl⟩
  · rw [htrace]; rfl
  · unfold fetch_data
    rw [List.count_cons]
    rw [List.count_eq_zero.mpr (session_not_in_runKinds fetchOutcome writeOutcome
      year months datatypes)]
    simp
  · rw [htrace, List.countP_cons]
    rw [countP_isWrite_kind_trace]
    rfl

/-- C5 witness: the success-run characterization instantiated on
`(2024, [5], [bb, hr])` with always-succeeding outcomes. -/
theorem fetch_data_orchestration_witness :
    (fetch_data (fun _ _ => .ok ()) (fun _ => .ok ()) 2024 [5] [.bb, .hr]).1.count
      .session = 1 ∧
    (fetch_data (fun _ _ => .ok ()) (fun _ => .ok ()) 2024 [5] [.bb, .hr]).1.countP
      isWriteEvent = ([DataType.bb, DataType.hr].length * [5].length : Nat) :=
  have h := fetch_data_orchestration (fun _ _ => .ok ()) (fun _ => .ok ())
    2024 [5] [.bb, .hr] (fun _ _ => rfl) (fun _ => rfl)
  ⟨h.2.2.1, h.2.2.2.1⟩

theorem write_mem_runMonths (fetchOutcome : DataType → Nat → Except String Unit)
    (writeOutcome : String → Except String Unit) (dt : DataType) (year : Nat)
    (months : List Nat) (dt' : DataType) (m' : Nat) (fn : String)
    (h : Event.write dt' m' fn ∈ (runMonths fetchOutcome writeOutcome dt year months).1) :
    dt' = dt ∧ fetchOutcome dt m' = .ok () ∧ fn = dataTypeFilename dt year m' := by
  induction months with
  | nil => simp [runMonths] at h
  | cons m ms ih =>
    cases hfo : fetchOutcome dt m with
    | error e =>
      rw [runMonths] at h
      rw [hfo] at h
      simp at h
    | ok u =>
      cases hwo : writeOutcome (dataTypeFilename dt year m) with
      | error e =>
        rw [runMonths] at h
        rw [hfo, hwo] at h
        simp at h
        rcases h with ⟨h1, h2, h3⟩
        subst h1; subst h2; subst h3
        exact ⟨rfl, by rw [hfo], rfl⟩
      | ok v =>
        rw [runMonths] at h
        rw [hfo, hwo] at h
        simp at h
        rcases h with ⟨h1, h2, h3⟩ | h
        · subst h1; subst h2; subst h3
          exact ⟨rfl, by rw [hfo], rfl⟩
        · exact ih h

theorem write_mem_runKinds (fetchOutcome : DataType → Nat → Except String Unit)
    (writeOutcome : String → Except String Unit) (year : Nat)
    (months : List Nat) (datatypes : List DataType) (dt' : DataType) (m' : Nat)
    (fn : String)
    (h : Event.write dt' m' fn ∈
      (runKinds fetchOutcome writeOutcome year months datatypes).1) :
    fetchOutcome dt' m' = .ok () ∧ fn = dataTypeFilename dt' year m' := by
  induction datatypes with
  | nil => simp [runKinds] at h
  | cons dt dts ih =>
    cases hrm : (runMonths fetchOutcome writeOutcome dt year months).2 with
    | some e =>
      simp only [runKinds, hrm] at h
      obtain ⟨h1, h2, h3⟩ := write_mem_runMonths fetchOutcome writeOutcome dt year
        months dt' m' fn h
      subst h1
      exact ⟨h2, h3⟩
    | none =>
      simp only [runKinds, hrm, List.mem_append] at h
      rcases h with h | h
      · obtain ⟨h1, h2, h3⟩ := write_mem_runMonths fetchOutcome writeOutcome dt year
          months dt' m' fn h
        subst h1
        exact ⟨h2, h3⟩
      · exact ih h

theorem runMonths_trace_initial (fetchOutcome : DataType → Nat → Except String Unit)
    (writeOutcome : String → Except String Unit) (dt : DataType) (year : Nat)
    (months : List Nat) :
    (runMonths fetchOutcome writeOutcome dt year months).1 <+:
      months.flatMap (fun m =>
        [Event.fetch dt m, Event.write dt m (dataTypeFilename dt year m)]) := by
  induction months with
  | nil => simp [runMonths]
  | cons m ms ih =>
    rw [List.flatMap_cons]
    cases hfo : fetchOutcome dt m with
    | error e =>
      rw [runMonths, hfo]
      exact ⟨Event.write dt m (dataTypeFilename dt year m) :: ms.flatMap (fun m =>
        [Event.fetch dt m, Event.write dt m (dataTypeFilename dt year m)]), rfl⟩
    | ok u =>
      cases hwo : writeOutcome (dataTypeFilename dt year m) with
      | error e =>
        rw [runMonths, hfo, hwo]
        exact ⟨ms.flatMap (fun m =>
          [Event.fetch dt m, Event.write dt m (dataTypeFilename dt year m)]), rfl⟩
      | ok v =>
        rw [runMonths, hfo, hwo]
        obtain ⟨t, ht⟩ := ih
        exact ⟨t, by simp [← ht]⟩

theorem runMonths_none_trace (fetchOutcome : DataType → Nat → Except String Unit)
    (writeOutcome : String → Except String Unit) (dt : DataType) (year : Nat)
    (months : List Nat)
    (h : (runMonths fetchOutcome writeOutcome dt year months).2 = none) :
    (runMonths fetchOutcome writeOutcome dt year months).1 =
      months.flatMap (fun m =>
        [Event.fetch dt m, Event.write dt m (dataTypeFilename dt year m)]) := by
  induction months with
  | nil => rfl
  | cons m ms ih =>
    cases hfo : fetchOutcome dt m with
    | error e =>
      rw [runMonths, hfo] at h
      simp at h
    | ok u =>
      cases hwo : writeOutcome (dataTypeFilename dt year m) with
      | error e =>
        rw [runMonths, hfo, hwo] at h
        simp at h
      | ok v =>
        rw [runMonths, hfo, hwo] at h ⊢
        simp only [List.flatMap_cons]
        simp at h
        rw [ih h]
        rfl

theorem runKinds_trace_initial (fetchOutcome : DataType → Nat → Except String Unit)
    (writeOutcome : String → Except String Unit) (year : Nat) (months : List Nat)
    (datatypes : List DataType) :
    (runKinds fetchOutcome writeOutcome year months datatypes).1 <+:
      datatypes.flatMap (fun dt => months.flatMap (fun m =>
        [Event.fetch dt m, Event.write dt m (dataTypeFilename dt year m)])) := by
  induction datatypes with
  | nil => simp [runKinds]
  | cons dt dts ih =>
    rw [List.flatMap_cons]
    cases hrm : (runMonths fetchOutcome writeOutcome dt year months).2 with
    | some e =>
      simp only [runKinds, hrm]
      exact (runMonths_trace_initial fetchOutcome writeOutcome dt year months).trans
        (List.prefix_append _ _)
    | none =>
      simp only [runKinds, hrm]
      rw [runMonths_none_trace fetchOutcome writeOutcome dt year months hrm]
      obtain ⟨t, ht⟩ := ih
      exact ⟨t, by rw [List.append_assoc, ht]⟩

/-- C10: the orchestrator invokes the CSV writer for a (kind, month) pair
only after that pair's fetch has returned successfully — a write event for a
pair occurs in the run trace only if the pair's fetch outcome was a success
and the written file is that pair's file; the events of a failing run are an
unmodified prefix of the all-success run, so files written for earlier pairs
persist and nothing after the failure touches them.  Concretely, failing the
`hr` fetch of `(2024, [5], [bb, hr])` leaves the `bb` file written and
produces no `hr` write. -/
theorem fetch_data_write_after_fetch
    (fetchOutcome : DataType → Nat → Except String Unit)
    (writeOutcome : String → Except String Unit)
    (year : Nat) (months : List Nat) (datatypes : List DataType) :
    (∀ dt m fn, Event.write dt m fn ∈
        (fetch_data fetchOutcome writeOutcome year months datatypes).1 →
      fetchOutcome dt m = .ok () ∧ fn = dataTypeFilename dt year m) ∧
    ((fetch_data fetchOutcome writeOutcome year months datatypes).1 <+:
      (fetch_data (fun _ _ => .ok ()) (fun _ => .ok ()) year months datatypes).1) ∧
    (fetch_data (fun dt _ => if dt = .hr then .error "HTTP 500" else .ok ())
        (fun _ => .ok ()) 2024 [5] [.bb, .hr]).1 =
      [.session, .fetch .bb 5, .write .bb 5 "bb202405.csv", .fetch .hr 5] ∧
    Event.write .hr 5 "hr202405.csv" ∉
      (fetch_data (fun dt _ => if dt = .hr then .error "HTTP 500" else .ok ())
        (fun _ => .ok ()) 2024 [5] [.bb, .hr]).1 := by
  refine ⟨?_, ?_, by rfl, by decide⟩
  · intro dt m fn h
    unfold fetch_data at h
    simp only [List.mem_cons] at h
    rcases h with h | h
    · exact absurd h (by simp)
    · exact write_mem_runKinds fetchOutcome writeOutcome year months datatypes
        dt m fn h
  · unfold fetch_data
    rw [runKinds_ok (fun _ _ => .ok ()) (fun _ => .ok ()) year months datatypes
      (fun _ _ => rfl) (fun _ => rfl)]
    obtain ⟨t, ht⟩ := runKinds_trace_initial fetchOutcome writeOutcome year months
      datatypes
    exact ⟨t, by rw [List.cons_append, ht]⟩

/-- C10 witness: the write-implies-successful-fetch clause instantiated on a
concrete successful run. -/
theorem fetch_data_write_after_fetch_witness :
    (fun (_ : DataType) (_ : Nat) => (.ok () : Except String Unit)) .bb 5 = .ok () ∧
    "bb202405.csv" = dataTypeFilename .bb 2024 5 :=
  (fetch_data_write_after_fetch (fun _ _ => .ok ()) (fun _ => .ok ())
    2024 [5] [.bb, .hr]).1 .bb 5 "bb202405.csv" (by decide)

theorem leb_iff {a b : Date} : Date.leb a b = true ↔
    (a.year < b.year ∨ (a.year = b.year ∧ (a.month < b.month ∨
      (a.month = b.month ∧ a.day ≤ b.day)))) := by
  unfold Date.leb
  split_ifs with h1 h2 <;> simp_all

theorem ltb_iff {a b : Date} : Date.ltb a b = true ↔
    (a.year < b.year ∨ (a.year = b.year ∧ (a.month < b.month ∨
      (a.month = b.month ∧ a.day < b.day)))) := by
  unfold Date.ltb
  split_ifs with h1 h2 <;> simp_all

theorem one_le_daysInMonth (y m : Nat) (h1 : 1 ≤ m) (h2 : m ≤ 12) :
    28 ≤ daysInMonth y m := by
  interval_cases m <;> simp [daysInMonth]
  split <;> omega

theorem addDays_from_first (y m : Nat) (i : Nat) (h : i < daysInMonth y m) :
    addDays ⟨y, m, 1⟩ i = ⟨y, m, i + 1⟩ := by
  induction i with
  | zero => rfl
  | succ i ih =>
    have ih2 := ih (by omega)
    show nextDay (addDays ⟨y, m, 1⟩ i) = _
    rw [ih2]
    unfold nextDay
    rw [if_pos]
    show i + 1 < daysInMonth y m
    exact h

theorem get_days_count_eq (month year dd : Nat) (today : Date)
    (hmin : pyMin today ⟨year, month, daysInMonth year month⟩ = ⟨year, month, dd⟩) :
    get_days_count month year today = (dd : Int) := by
  unfold get_days_count
  rw [hmin]
  unfold daysDiff toOrdinal
  dsimp only
  omega

theorem pyMin_month_day (month year : Nat) (today : Date)
    (hm1 : 1 ≤ month) (hm2 : month ≤ 12)
    (hstart : Date.leb ⟨year, month, 1⟩ today = true) :
    ∃ dd, 1 ≤ dd ∧ dd ≤ daysInMonth year month ∧
      pyMin today ⟨year, month, daysInMonth year month⟩ = ⟨year, month, dd⟩ ∧
      (Date.ltb ⟨year, month, daysInMonth year month⟩ today = true →
        dd = daysInMonth year month) := by
  have hdim := one_le_daysInMonth year month hm1 hm2
  by_cases hlt : Date.ltb ⟨year, month, daysInMonth year month⟩ today = true
  · refine ⟨daysInMonth year month, by omega, le_refl _, ?_, fun _ => rfl⟩
    unfold pyMin
    rw [if_pos hlt]
  · have hlt0 := hlt
    rw [leb_iff] at hstart
    rw [ltb_iff] at hlt
    push_neg at hlt
    obtain ⟨ty, tm, td⟩ := today
    dsimp only at hstart hlt
    obtain ⟨hl1, hl2⟩ := hlt
    have hty : ty = year := by
      rcases hstart with h | ⟨h, _⟩ <;> omega
    subst hty
    have hl2' := hl2 rfl
    obtain ⟨hl3, hl4⟩ := hl2'
    have htm : tm = month := by
      rcases hstart with h | ⟨_, h | ⟨h, _⟩⟩ <;> omega
    subst htm
    have hl4' := hl4 rfl
    have htd : 1 ≤ td := by
      rcases hstart with h | ⟨_, h | ⟨_, h⟩⟩ <;> omega
    refine ⟨td, htd, hl4', ?_, fun hc => absurd hc hlt0⟩
    unfold pyMin
    rw [if_neg hlt0]

theorem get_days_of_month_eq_range (month year dd : Nat) (today : Date)
    (hdd : dd ≤ daysInMonth year month)
    (hmin : pyMin today ⟨year, month, daysInMonth year month⟩ = ⟨year, month, dd⟩) :
    get_days_of_month month year today =
      (List.range dd).map (fun i => (⟨year, month, i + 1⟩ : Date)) := by
  unfold get_days_of_month
  rw [get_days_count_eq month year dd today hmin, Int.toNat_natCast]
  apply List.map_congr_left
  intro i hi
  rw [List.mem_range] at hi
  exact addDays_from_first year month i (by omega)

/-- C1: for every valid month 1..12 and every year, once the month has
started (its first day is not after "today"), `get_days_of_month` returns a
contiguous ascending day sequence (each successive ordinal one larger)
starting on the 1st and ending on the earlier of the month's last day and
"today"; when the month lies fully in the past the length is the calendar
length of the month; February 2024 gives 29 days, February 2023 gives 28,
and May 2024 seen from 2024-05-15 gives 15 days ending on 2024-05-15. -/
theorem get_days_of_month_correct (month year : Nat) (today : Date)
    (hm1 : 1 ≤ month) (hm2 : month ≤ 12)
    (hstart : Date.leb ⟨year, month, 1⟩ today = true) :
    (get_days_of_month month year today).head? = some ⟨year, month, 1⟩ ∧
    (get_days_of_month month year today).getLast? =
      some (pyMin today ⟨year, month, daysInMonth year month⟩) ∧
    List.Chain' (fun a b => toOrdinal b = toOrdinal a + 1)
      (get_days_of_month month year today) ∧
    (Date.ltb ⟨year, month, daysInMonth year month⟩ today = true →
      (get_days_of_month month year today).length = daysInMonth year month) ∧
    (get_days_of_month 2 2024 ⟨2024, 5, 15⟩).length = 29 ∧
    (get_days_of_month 2 2023 ⟨2024, 5, 15⟩).length = 28 ∧
    (get_days_of_month 5 2024 ⟨2024, 5, 15⟩).length = 15 ∧
    (get_days_of_month 5 2024 ⟨2024, 5, 15⟩).getLast? = some ⟨2024, 5, 15⟩ := by
  obtain ⟨dd, hdd1, hdd2, hmin, hfull⟩ :=
    pyMin_month_day month year today hm1 hm2 hstart
  have heq := get_days_of_month_eq_range month year dd today hdd2 hmin
  refine ⟨?_, ?_, ?_, ?_, by decide, by decide, by decide, by decide⟩
  · rw [heq, List.head?_eq_getElem?, List.getElem?_map,
      List.getElem?_range (by omega : 0 < dd)]
    rfl
  · rw [heq, List.getLast?_eq_getElem?]
    simp only [List.length_map, List.length_range]
    rw [List.getElem?_map, List.getElem?_range (by omega : dd - 1 < dd), hmin]
    simp only [Option.map_some']
    have h11 : dd - 1 + 1 = dd := by omega
    rw [h11]
  · rw [heq, List.chain'_iff_get]
    intro i hlen
    simp only [List.length_map, List.length_range] at hlen
    simp only [List.get_eq_getElem, List.getElem_map, List.getElem_range]
    show toOrdinal ⟨year, month, i + 1 + 1⟩ = toOrdinal ⟨year, month, i + 1⟩ + 1
    unfold toOrdinal
    dsimp only
    omega
  · intro hpast
    rw [heq]
    simp only [List.length_map, List.length_range]
    exact hfull hpast

/-- C1 witness: the characterization instantiated on May 2024 with
"today" = 2024-05-15. -/
theorem get_days_of_month_correct_witness :
    (get_days_of_month 5 2024 ⟨2024, 5, 15⟩).head? = some ⟨2024, 5, 1⟩ ∧
    (get_days_of_month 5 2024 ⟨2024, 5, 15⟩).getLast? =
      some (pyMin ⟨2024, 5, 15⟩ ⟨2024, 5, daysInMonth 2024 5⟩) ∧
    List.Chain' (fun a b => toOrdinal b = toOrdinal a + 1)
      (get_days_of_month 5 2024 ⟨2024, 5, 15⟩) ∧
    (Date.ltb ⟨2024, 5, daysInMonth 2024 5⟩ ⟨2024, 5, 15⟩ = true →
      (get_days_of_month 5 2024 ⟨2024, 5, 15⟩).length = daysInMonth 2024 5) ∧
    (get_days_of_month 2 2024 ⟨2024, 5, 15⟩).length = 29 ∧
    (get_days_of_month 2 2023 ⟨2024, 5, 15⟩).length = 28 ∧
    (get_days_of_month 5 2024 ⟨2024, 5, 15⟩).length = 15 ∧
    (get_days_of_month 5 2024 ⟨2024, 5, 15⟩).getLast? = some ⟨2024, 5, 15⟩ :=
  get_days_of_month_correct 5 2024 ⟨2024, 5, 15⟩ (by decide) (by decide) (by decide)

theorem daysBeforeMonth_succ (y m : Nat) (h : 1 ≤ m) :
    daysBeforeMonth y (m + 1) = daysBeforeMonth y m + daysInMonth y m := by
  obtain ⟨k, rfl⟩ : ∃ k, m = k + 1 := ⟨m - 1, by omega⟩
  show (if k + 1 = 0 then 0 else daysBeforeMonth y (k + 1) + daysInMonth y (k + 1)) = _
  rw [if_neg (by omega)]

theorem daysBeforeMonth_mono (y : Nat) {m m' : Nat} (h1 : 1 ≤ m) (h : m ≤ m') :
    daysBeforeMonth y m ≤ daysBeforeMonth y m' := by
  induction m', h using Nat.le_induction with
  | base => exact le_refl _
  | succ n hn ih =>
    have hstep := daysBeforeMonth_succ y n (by omega)
    omega

theorem daysBeforeMonth_13 (y : Nat) :
    daysBeforeMonth y 13 = 365 + (if isLeap y then 1 else 0) := by
  cases hL : isLeap y <;> simp [daysBeforeMonth, daysInMonth, hL]

theorem daysBeforeYear_succ (y : Nat) (h : 1 ≤ y) :
    daysBeforeYear (y + 1) = daysBeforeYear y + (if isLeap y then 366 else 365) := by
  obtain ⟨n, rfl⟩ : ∃ n, y = n + 1 := ⟨y - 1, by omega⟩
  have hleap : (isLeap (n + 1) = true) ↔
      (((n + 1) % 4 = 0 ∧ ¬(n + 1) % 100 = 0) ∨ (n + 1) % 400 = 0) := by
    simp [isLeap]
  unfold daysBeforeYear
  simp only [Nat.add_sub_cancel]
  rw [Nat.succ_div n 4, Nat.succ_div n 400, Nat.succ_div n 100]
  simp only [hleap, Nat.dvd_iff_mod_eq_zero]
  split_ifs <;> omega

theorem daysBeforeYear_mono {y y' : Nat} (h1 : 1 ≤ y) (h : y ≤ y') :
    daysBeforeYear y ≤ daysBeforeYear y' := by
  induction y', h using Nat.le_induction with
  | base => exact le_refl _
  | succ n hn ih =>
    have hstep := daysBeforeYear_succ n (by omega)
    split at hstep <;> omega

theorem toOrdinal_lt_toOrdinal {a b : Date} (ha : ValidDate a) (hb : ValidDate b)
    (hlt : Date.ltb a b = true) : toOrdinal a < toOrdinal b := by
  obtain ⟨ha1, ha2, ha3, ha4, ha5⟩ := ha
  obtain ⟨hb1, hb2, hb3, hb4, hb5⟩ := hb
  rw [ltb_iff] at hlt
  have hwithin : ∀ y m d, 1 ≤ m → m ≤ 12 → d ≤ daysInMonth y m →
      daysBeforeMonth y m + d ≤ 365 + (if isLeap y then 1 else 0) := by
    intro y m d hm1 hm12 hd
    have e1 : daysBeforeMonth y m + daysInMonth y m = daysBeforeMonth y (m + 1) :=
      (daysBeforeMonth_succ y m hm1).symm
    have e2 : daysBeforeMonth y (m + 1) ≤ daysBeforeMonth y 13 :=
      daysBeforeMonth_mono y (by omega) (by omega)
    have e3 := daysBeforeMonth_13 y
    omega
  unfold toOrdinal
  rcases hlt with hy | ⟨hyeq, hm⟩
  · have h1 : daysBeforeMonth a.year a.month + a.day ≤
        365 + (if isLeap a.year then 1 else 0) := hwithin _ _ _ ha2 ha3 ha5
    have h2 := daysBeforeYear_succ a.year ha1
    have h3 : daysBeforeYear (a.year + 1) ≤ daysBeforeYear b.year :=
      daysBeforeYear_mono (by omega) (by omega)
    by_cases hL : isLeap a.year = true <;> simp only [hL] at h1 h2 <;>
      simp at h1 h2 <;> omega
  · rcases hm with hm | ⟨hmeq, hd⟩
    · have e1 : daysBeforeMonth a.year a.month + daysInMonth a.year a.month =
          daysBeforeMonth a.year (a.month + 1) := (daysBeforeMonth_succ _ _ ha2).symm
      have e2 : daysBeforeMonth a.year (a.month + 1) ≤ daysBeforeMonth a.year b.month := by
        apply daysBeforeMonth_mono <;> omega
      rw [← hyeq]
      omega
    · rw [← hyeq, ← hmeq]
      omega

/-- C3 counterexample: for June 2024 viewed from "today" = 2024-05-31 — a
month whose first calendar day is strictly after "today" — the upper bound
min(today, end_of_month) = 2024-05-31 does lie before the lower bound
2024-06-01, but the claimed "negative-length range" does not occur: the
comprehension count `(to_date - from_date).days + 1` is 0, not negative, and
the result is the well-defined empty list (Python `range` over a
non-positive bound is empty), not undefined behavior. -/
theorem get_days_future_counterexample :
    Date.ltb ⟨2024, 5, 31⟩ ⟨2024, 6, 1⟩ = true ∧
    Date.ltb (pyMin ⟨2024, 5, 31⟩ ⟨2024, 6, daysInMonth 2024 6⟩)
      ⟨2024, 6, 1⟩ = true ∧
    get_days_count 6 2024 ⟨2024, 5, 31⟩ = 0 ∧
    ¬ get_days_count 6 2024 ⟨2024, 5, 31⟩ < 0 ∧
    get_days_of_month 6 2024 ⟨2024, 5, 31⟩ = [] :=
  ⟨by decide, by decide, by decide, by decide, by decide⟩

/-- C3 (amended): for every (year, month) whose first calendar day is
strictly after a valid "today", `get_days_of_month` computes an upper bound
(min(today, end_of_month) = today) that lies strictly before the lower
bound, and the list-comprehension count `(to_date - from_date).days + 1` is
≤ 0 (exactly 0 when "today" is the day before the 1st, strictly negative
otherwise); the comprehension over that count is nevertheless well defined —
Python's `range` over a non-positive bound is empty — so the function
returns the empty list rather than being undefined. -/
theorem get_days_of_month_future (month year : Nat) (today : Date)
    (hm1 : 1 ≤ month) (hm2 : month ≤ 12) (hy : 1 ≤ year)
    (hv : ValidDate today)
    (hfut : Date.ltb today ⟨year, month, 1⟩ = true) :
    Date.ltb (pyMin today ⟨year, month, daysInMonth year month⟩)
      ⟨year, month, 1⟩ = true ∧
    get_days_count month year today ≤ 0 ∧
    get_days_of_month month year today = [] := by
  have hdim := one_le_daysInMonth year month hm1 hm2
  have hne : ¬ Date.ltb ⟨year, month, daysInMonth year month⟩ today = true := by
    intro hc
    rw [ltb_iff] at hc
    have hfut2 := hfut
    rw [ltb_iff] at hfut2
    have hc2 : year < today.year ∨ (year = today.year ∧ (month < today.month ∨
        (month = today.month ∧ daysInMonth year month < today.day))) := hc
    have hfut3 : today.year < year ∨ (today.year = year ∧ (today.month < month ∨
        (today.month = month ∧ today.day < 1))) := hfut2
    rcases hc2 with h | ⟨h1, h | ⟨h2, h3⟩⟩ <;>
      rcases hfut3 with h' | ⟨h1', h' | ⟨h2', h3'⟩⟩ <;> omega
  have hmin : pyMin today ⟨year, month, daysInMonth year month⟩ = today := by
    unfold pyMin
    rw [if_neg hne]
  have hvfirst : ValidDate ⟨year, month, 1⟩ :=
    ⟨hy, hm1, hm2, le_refl 1, show 1 ≤ daysInMonth year month by omega⟩
  have hord := toOrdinal_lt_toOrdinal hv hvfirst hfut
  have hcount : get_days_count month year today ≤ 0 := by
    unfold get_days_count daysDiff
    rw [hmin]
    omega
  refine ⟨by rw [hmin]; exact hfut, hcount, ?_⟩
  unfold get_days_of_month
  have h0 : (get_days_count month year today).toNat = 0 := by omega
  rw [h0]
  rfl

/-- C3 witness: March 2024 viewed from "today" = 2024-01-31 — here the count
is strictly negative — yields the empty list. -/
theorem get_days_of_month_future_witness :
    Date.ltb (pyMin ⟨2024, 1, 31⟩ ⟨2024, 3, daysInMonth 2024 3⟩)
      ⟨2024, 3, 1⟩ = true ∧
    get_days_count 3 2024 ⟨2024, 1, 31⟩ ≤ 0 ∧
    get_days_of_month 3 2024 ⟨2024, 1, 31⟩ = [] :=
  get_days_of_month_future 3 2024 ⟨2024, 1, 31⟩ (by decide) (by decide)
    (by decide) (by decide) (by decide)

end Garmin
